import Mathlib

/-!
Shallow embedding of `actix_lambda_http` (`src/lib.rs`): an adapter that
translates one AWS Lambda HTTP invocation event into a call of a wrapped
Actix service and the streamed response back into a single Lambda response.

Strings from the Rust code are modelled as their UTF-8 byte sequences
(`Bytes := List Nat`, every byte `< 256`); a Rust `String`/`&str` IS its
UTF-8 bytes, so this is a faithful and fully executable representation.
-/

namespace ActixLambdaHttp

/-- Byte strings. In the Rust source these are `&str` / `String` / `Bytes`
values; a byte is a `Nat` that is `< 256` wherever it matters. -/
abbrev Bytes := List Nat

def validBytes (bs : Bytes) : Prop := ∀ b ∈ bs, b < 256

instance (bs : Bytes) : Decidable (validBytes bs) :=
  inferInstanceAs (Decidable (∀ b ∈ bs, b < 256))

/-! ## Percent-encode sets (crate `percent_encoding` 1.x)

`SIMPLE_ENCODE_SET` escapes C0 controls and all bytes above `0x7E`;
`QUERY_ENCODE_SET` additionally escapes space, `"`, `#`, `<`, `>`.
`lib.rs` lines 25-30 define `URL_ENCODE = [QUERY_ENCODE_SET] | \x7b '%' \x7d`. -/

def SIMPLE_ENCODE_SET (b : Nat) : Bool :=
  decide (b < 0x20 ∨ 0x7E < b)

def QUERY_ENCODE_SET (b : Nat) : Bool :=
  SIMPLE_ENCODE_SET b || decide (b = 0x20 ∨ b = 0x22 ∨ b = 0x23 ∨ b = 0x3C ∨ b = 0x3E)

namespace enc_set

/-- `lib.rs` 27-29: `define_encode_set! \x7b pub URL_ENCODE = [QUERY_ENCODE_SET] | \x7b '%' \x7d \x7d` -/
def URL_ENCODE (b : Nat) : Bool :=
  QUERY_ENCODE_SET b || decide (b = 0x25)

end enc_set

/-- Upper-case hex digit of a nibble, as `percent_encoding` emits (`%XX` upper case). -/
def hexUpper (n : Nat) : Nat :=
  if n < 10 then 0x30 + n else 0x37 + n

/-- Hex digit value accepted by `percent_encoding::percent_decode`
(both cases accepted). -/
def hexVal (c : Nat) : Option Nat :=
  if 0x30 ≤ c ∧ c ≤ 0x39 then some (c - 0x30)
  else if 0x41 ≤ c ∧ c ≤ 0x46 then some (c - 0x41 + 10)
  else if 0x61 ≤ c ∧ c ≤ 0x66 then some (c - 0x61 + 10)
  else none

/-- One byte of `utf8_percent_encode` output: a byte in the encode set becomes
`%` followed by its two upper-case hex digits, any other byte passes through. -/
def percentEncodeByteWith (set : Nat → Bool) (b : Nat) : Bytes :=
  if set b then [0x25, hexUpper (b / 16), hexUpper (b % 16)] else [b]

/-- `percent_encoding` iterates the UTF-8 bytes of the input and encodes each
byte independently against the encode set. -/
def percentEncodeWith (set : Nat → Bool) : Bytes → Bytes
  | [] => []
  | b :: rest => percentEncodeByteWith set b ++ percentEncodeWith set rest

/-- `utf8_percent_encode(s, enc_set::URL_ENCODE)` as used at `lib.rs` 148-149. -/
def utf8_percent_encode (s : Bytes) : Bytes :=
  percentEncodeWith enc_set.URL_ENCODE s

/-- Reads two hex digits from the head of the input: the decoded byte and the
remaining input, or `none` if the input does not start with two hex digits. -/
def hexPair : Bytes → Option (Nat × Bytes)
  | h :: l :: rest2 =>
    match hexVal h, hexVal l with
    | some hv, some lv => some (hv * 16 + lv, rest2)
    | _, _ => none
  | _ => none

theorem hexPair_length {rest : Bytes} {vr : Nat × Bytes}
    (h : hexPair rest = some vr) : vr.2.length + 2 = rest.length := by
  match rest with
  | [] => simp [hexPair] at h
  | [x] => simp [hexPair] at h
  | x :: y :: r =>
    simp only [hexPair] at h
    cases hx : hexVal x with
    | none => rw [hx] at h; simp at h
    | some hv =>
      cases hy : hexVal y with
      | none => rw [hx, hy] at h; simp at h
      | some lv =>
        rw [hx, hy] at h
        simp only [Option.some.injEq] at h
        subst h
        simp

/-- WHATWG percent-decoding (`percent_encoding::percent_decode`): `%` followed
by two hex digits decodes to that byte; a `%` not followed by two hex digits
passes through literally, as does every other byte. -/
def percentDecode : Bytes → Bytes
  | [] => []
  | b :: rest =>
    if b = 0x25 then
      match hmatch : hexPair rest with
      | some vr => vr.1 :: percentDecode vr.2
      | none => b :: percentDecode rest
    else
      b :: percentDecode rest
termination_by bs => bs.length
decreasing_by
  · have := hexPair_length hmatch
    simp only [List.length_cons]
    omega
  · simp
  · simp

/-! ## Query-string reconstruction (`lib.rs` 140-153)

`for (i, (key, value)) in query_params.iter().enumerate()` writes
`"{}{}={}"` with `"?"` for `i == 0` and `"&"` otherwise, percent-encoding
key and value with `enc_set::URL_ENCODE`.  The `Bool` argument tracks
whether the next pair is the first one (`i == 0`). -/

def queryStringAux : Bool → List (Bytes × Bytes) → Bytes
  | _, [] => []
  | first, (key, value) :: rest =>
    ((if first then [0x3F] else [0x26]) ++
      utf8_percent_encode key ++ [0x3D] ++ utf8_percent_encode value) ++
    queryStringAux false rest

/-- The full query-string suffix appended to the path: empty parameter list
yields the empty suffix (no `?`). -/
def queryString (params : List (Bytes × Bytes)) : Bytes :=
  queryStringAux true params

/-- `uri::Builder` output at `lib.rs` 135-162: `scheme "://" authority path
query-suffix`.  (`builder.build().unwrap()` is modelled as this total
concatenation; the two `unwrap()`s on scheme and authority are modelled at the
`normalize` level.) -/
def reconstructUri (scheme authority path : Bytes) (params : List (Bytes × Bytes)) : Bytes :=
  scheme ++ [0x3A, 0x2F, 0x2F] ++ authority ++ path ++ queryString params

/-! ## Basic lemmas about encoding -/

theorem hexVal_hexUpper : ∀ n < 16, hexVal (hexUpper n) = some n := by decide

theorem urlEncode_percent : enc_set.URL_ENCODE 0x25 = true := by decide

theorem percentDecode_nil : percentDecode [] = [] := by
  simp [percentDecode]

theorem percentDecode_cons_of_ne (b : Nat) (rest : Bytes) (h : b ≠ 0x25) :
    percentDecode (b :: rest) = b :: percentDecode rest := by
  rw [percentDecode]
  simp [h]

theorem percentDecode_group (b : Nat) (rest : Bytes) (hb : b < 256) :
    percentDecode (0x25 :: hexUpper (b / 16) :: hexUpper (b % 16) :: rest) =
      b :: percentDecode rest := by
  have hdiv : b / 16 < 16 := by omega
  have hmod : b % 16 < 16 := by omega
  rw [percentDecode]
  simp only [if_pos rfl]
  have hpair : hexPair (hexUpper (b / 16) :: hexUpper (b % 16) :: rest) =
      some (b, rest) := by
    simp only [hexPair, hexVal_hexUpper _ hdiv, hexVal_hexUpper _ hmod]
    congr 1
    congr 1
    omega
  rw [hpair]
  simp

/-- Decoding inverts the full percent encoding: because `%` itself is in the
`URL_ENCODE` set, every encoded byte group decodes back to the original byte. -/
theorem percentDecode_utf8_percent_encode (s : Bytes) (h : validBytes s) :
    percentDecode (utf8_percent_encode s) = s := by
  induction s with
  | nil => exact percentDecode_nil
  | cons b rest ih =>
    have hb : b < 256 := h b (List.mem_cons_self b rest)
    have hrest : validBytes rest := fun x hx => h x (List.mem_cons_of_mem b hx)
    show percentDecode (percentEncodeByteWith enc_set.URL_ENCODE b ++
      utf8_percent_encode rest) = b :: rest
    by_cases hset : enc_set.URL_ENCODE b = true
    · rw [percentEncodeByteWith, if_pos hset]
      show percentDecode (0x25 :: hexUpper (b / 16) :: hexUpper (b % 16) ::
        utf8_percent_encode rest) = b :: rest
      rw [percentDecode_group b _ hb, ih hrest]
    · have hne : b ≠ 0x25 := by
        intro hb25
        rw [hb25] at hset
        exact hset urlEncode_percent
      rw [percentEncodeByteWith, if_neg hset]
      show percentDecode (b :: utf8_percent_encode rest) = b :: rest
      rw [percentDecode_cons_of_ne b _ hne, ih hrest]

/-! ## String literals as UTF-8 byte lists -/

/-- UTF-8 encoding of a Unicode scalar value (used only to write byte-string
literals for concrete test inputs). -/
def utf8EncodeChar (c : Nat) : Bytes :=
  if c < 0x80 then [c]
  else if c < 0x800 then [0xC0 + c / 64, 0x80 + c % 64]
  else if c < 0x10000 then [0xE0 + c / 4096, 0x80 + (c / 64) % 64, 0x80 + c % 64]
  else [0xF0 + c / 262144, 0x80 + (c / 4096) % 64, 0x80 + (c / 64) % 64, 0x80 + c % 64]

/-- The UTF-8 bytes of a string literal. -/
def strB (s : String) : Bytes :=
  (s.data.map (fun c => utf8EncodeChar c.toNat)).flatten

/-! ## UTF-8 validation (`String::from_utf8`, `lib.rs` 237)

Mirrors Rust's `core::str` UTF-8 validation: lead bytes `0x00..=0x7F` stand
alone; `0xC2..=0xDF` take one continuation byte; `0xE0..=0xEF` take two, with
restricted first continuations for `0xE0` (no overlongs) and `0xED` (no
surrogates); `0xF0..=0xF4` take three, with restricted first continuations for
`0xF0` (no overlongs) and `0xF4` (max `U+10FFFF`); everything else is invalid. -/

def isCont (b : Nat) : Bool := decide (0x80 ≤ b ∧ b < 0xC0)

def utf8Valid : Bytes → Bool
  | [] => true
  | b :: rest =>
    if b < 0x80 then utf8Valid rest
    else if b < 0xC2 then false
    else if b < 0xE0 then
      match rest with
      | b2 :: rest2 => isCont b2 && utf8Valid rest2
      | [] => false
    else if b < 0xF0 then
      match rest with
      | b2 :: b3 :: rest2 =>
        (if b = 0xE0 then decide (0xA0 ≤ b2 ∧ b2 < 0xC0)
         else if b = 0xED then decide (0x80 ≤ b2 ∧ b2 < 0xA0)
         else isCont b2) && isCont b3 && utf8Valid rest2
      | _ => false
    else if b < 0xF5 then
      match rest with
      | b2 :: b3 :: b4 :: rest2 =>
        (if b = 0xF0 then decide (0x90 ≤ b2 ∧ b2 < 0xC0)
         else if b = 0xF4 then decide (0x80 ≤ b2 ∧ b2 < 0x90)
         else isCont b2) && isCont b3 && isCont b4 && utf8Valid rest2
      | _ => false
    else false

/-! ## Data model

`lambda_http::Request` carries method, URI (scheme, authority, path), the
ordered query parameters (stored in the request extensions, read by
`req.query_string_parameters()`), headers and a `lambda_http::Body`.
Scheme and authority are optional in an `http::Uri`; `lib.rs` 137-138
`unwrap()`s them (modelled by the `Option` result of `normalize`). -/

/-- `lambda_http::Body` (also used for the outbound response body).  A `Text`
body carries the UTF-8 bytes of its `String`. -/
inductive LambdaBody
  | empty : LambdaBody
  | text (bytes : Bytes) : LambdaBody
  | binary (bytes : Bytes) : LambdaBody
deriving DecidableEq, Repr

/-- The inbound invocation event (`lambda_http::Request`). -/
structure LambdaEvent where
  method : Bytes
  scheme : Option Bytes
  authority : Option Bytes
  path : Bytes
  queryParams : List (Bytes × Bytes)
  headers : List (Bytes × Bytes)
  body : LambdaBody
deriving DecidableEq, Repr

/-- The normalized Actix request built at `lib.rs` 117-162: method, the
reconstructed URI, the headers moved over from the event, and the payload
seeded with the event body's bytes. -/
structure ActixRequest where
  method : Bytes
  uri : Bytes
  headers : List (Bytes × Bytes)
  payload : Bytes
deriving DecidableEq, Repr

/-- Opaque Actix error values (`actix_web::Error` after the `Into` conversion
at `lib.rs` 176). -/
abbrev ActixError := Nat

/-- A response body producer (`impl MessageBody`): a sequence of byte chunks
followed either by completion (`error = none`) or by a mid-stream error. -/
structure BodyProducer where
  chunks : List Bytes
  error : Option ActixError
deriving DecidableEq, Repr

/-- An Actix response: status, headers and a body of type `β`
(a `BodyProducer` before materialization, `Bytes` after). -/
structure ActixResponse (β : Type) where
  status : Nat
  headers : List (Bytes × Bytes)
  body : β
deriving DecidableEq, Repr

/-- The outbound invocation response (`lambda_http::Response<Body>`),
`lib.rs` 240-249. -/
structure LambdaResponse where
  status : Nat
  headers : List (Bytes × Bytes)
  body : LambdaBody
deriving DecidableEq, Repr

/-- The only error the handler closure itself returns (`lib.rs` 237): the `?`
on `String::from_utf8` converts a `FromUtf8Error` into a `HandlerError`.
(Service failures never reach the handler's error result: they are consumed by
`unwrap_or_else`, see `lambda_http_handler` below.) -/
inductive HandlerError
  | utf8Error : HandlerError
deriving DecidableEq, Repr

/-! ## Body materialization (`read_body`, `lib.rs` 258-263)

`read_body` folds the body stream into one `BytesMut`: each chunk's bytes are
appended to the accumulator; the first error aborts the fold and is returned,
discarding the bytes accumulated so far. -/

def read_body (body : BodyProducer) : Except ActixError Bytes :=
  match body.error with
  | some e => Except.error e
  | none => Except.ok body.chunks.flatten

/-! ## Event normalization (`lib.rs` 117-162)

The payload is seeded from the event body, whose storage is replaced by an
empty one (`replace(text, String::new())` / `replace(bytes, Vec::new())`);
the headers are moved out (`replace(req.headers_mut(), Default::default())`);
method is copied; the URI is rebuilt from scheme, authority, path and the
re-encoded query parameters.  The result pairs the normalized request with
the event as the mutations leave it; `none` models the `unwrap()` panic at
`lib.rs` 137-138 when scheme or authority is absent. -/

def normalize (ev : LambdaEvent) : Option (ActixRequest × LambdaEvent) :=
  match ev.scheme, ev.authority with
  | some sch, some auth =>
    let payload : Bytes :=
      match ev.body with
      | LambdaBody.empty => []
      | LambdaBody.text s => s
      | LambdaBody.binary bs => bs
    let req : ActixRequest :=
      { method := ev.method
        uri := reconstructUri sch auth ev.path ev.queryParams
        headers := ev.headers
        payload := payload }
    let ev2 : LambdaEvent :=
      { ev with
        body := match ev.body with
          | LambdaBody.empty => LambdaBody.empty
          | LambdaBody.text _ => LambdaBody.text []
          | LambdaBody.binary _ => LambdaBody.binary []
        headers := [] }
    some (req, ev2)
  | _, _ => none

/-! ## Response encoding (`lib.rs` 213-249) -/

/-- The bytes of the lower-cased `content-type` header name
(`http::header::CONTENT_TYPE`; `HeaderMap` stores names lower-cased). -/
def contentTypeName : Bytes := strB "content-type"

/-- `HeaderValue::to_str` (http crate): succeeds iff every byte is visible
ASCII (`0x20..=0x7E`) or horizontal tab. -/
def headerValueToStr (v : Bytes) : Option Bytes :=
  if v.all (fun b => decide ((0x20 ≤ b ∧ b < 0x7F) ∨ b = 9)) then some v else none

/-- `lib.rs` 222-225: `headers().get(CONTENT_TYPE).and_then(|v|
v.to_str().ok()).unwrap_or("")` — the first `content-type` value if present
and string-representable, the empty string otherwise. -/
def contentTypeOf (headers : List (Bytes × Bytes)) : Bytes :=
  match headers.find? (fun kv => decide (kv.1 = contentTypeName)) with
  | some kv => (headerValueToStr kv.2).getD []
  | none => []

/-- `lib.rs` 193-210 (the `unwrap_or_else` closure): render the error's own
response (`as_response_error().render_response()`, supplied here as the
external `render` collaborator), materialize its body, and on a secondary
materialization failure substitute an empty body while keeping the rendered
status and headers. -/
def errorFallbackResponse (render : ActixError → ActixResponse BodyProducer)
    (e : ActixError) : ActixResponse Bytes :=
  let resp2 := render e
  { status := resp2.status
    headers := resp2.headers
    body :=
      match read_body resp2.body with
      | Except.ok bs => bs
      | Except.error _ => [] }

/-- `lib.rs` 213-249: extract the content type, apply the binary/text
classification predicate, and build the outbound `lambda_http::Response` —
binary carries the raw bytes; text requires UTF-8 validity, otherwise the `?`
on `String::from_utf8` fails the invocation.  Status and headers are copied
from the Actix response. -/
def encodeLambdaResponse (binary_media_type_fn : Bytes → Bool)
    (resp : ActixResponse Bytes) : Except HandlerError LambdaResponse :=
  let is_binary := binary_media_type_fn (contentTypeOf resp.headers)
  if is_binary then
    Except.ok { status := resp.status, headers := resp.headers,
                body := LambdaBody.binary resp.body }
  else if utf8Valid resp.body then
    Except.ok { status := resp.status, headers := resp.headers,
                body := LambdaBody.text resp.body }
  else
    Except.error HandlerError.utf8Error

/-- The handler closure (`lib.rs` 112-250).  Parameters model the external
collaborators: the classification predicate `binary_media_type_fn`, the
wrapped service (already driven to completion by the blocking bridge, so a
plain function to a result), and `render_response`, the error's rendering rule
(`actix_err.as_response_error().render_response()`).  The outer `Option` is
`none` exactly when normalization panics on a missing scheme/authority.

Note the success-path structure (`lib.rs` 174-210): `user_resp.map_err(..)
.and_then(materialize).unwrap_or_else(error fallback)` — a materialization
failure on the success path flows into the same `unwrap_or_else` fallback as a
service-call failure. -/
def lambda_http_handler (binary_media_type_fn : Bytes → Bool)
    (service : ActixRequest → Except ActixError (ActixResponse BodyProducer))
    (render_response : ActixError → ActixResponse BodyProducer)
    (ev : LambdaEvent) : Option (Except HandlerError LambdaResponse) :=
  match normalize ev with
  | none => none
  | some (req, _ev2) =>
    let actix_resp : ActixResponse Bytes :=
      match service req with
      | Except.ok resp =>
        match read_body resp.body with
        | Except.ok bytes =>
          { status := resp.status, headers := resp.headers, body := bytes }
        | Except.error e => errorFallbackResponse render_response e
      | Except.error e => errorFallbackResponse render_response e
    some (encodeLambdaResponse binary_media_type_fn actix_resp)

/-! ## Spec-side query-string construction

An independent rendering of the spec's words, to compare the source's
construction against: "the first pair is prefixed with `?`, subsequent pairs
with `&`; each key and value individually percent-encoded using a strict
encoding set that escapes every character the baseline query encode set
escapes plus the percent sign itself". -/

/-- The spec's encode set, written out directly: the baseline WHATWG query
encode set (C0 controls, bytes above `0x7E`, space, `"`, `#`, `<`, `>`)
plus `%`. -/
def querySpecEncodeSet (b : Nat) : Bool :=
  decide (b < 0x20 ∨ 0x7E < b ∨ b = 0x20 ∨ b = 0x22 ∨ b = 0x23 ∨
    b = 0x3C ∨ b = 0x3E ∨ b = 0x25)

/-- One `key=value` segment pair, each side percent-encoded with the spec's
encode set. -/
def querySpecSegment (kv : Bytes × Bytes) : Bytes :=
  percentEncodeWith querySpecEncodeSet kv.1 ++ [0x3D] ++
    percentEncodeWith querySpecEncodeSet kv.2

/-- The spec's query string: empty for no parameters (no `?`), otherwise `?`
before the first pair and `&` before each subsequent pair. -/
def queryStringSpec : List (Bytes × Bytes) → Bytes
  | [] => []
  | p :: rest =>
    [0x3F] ++ querySpecSegment p ++
      (rest.map (fun q => [0x26] ++ querySpecSegment q)).flatten

theorem urlEncode_eq_querySpec (b : Nat) :
    enc_set.URL_ENCODE b = querySpecEncodeSet b := by
  rw [Bool.eq_iff_iff]
  simp only [enc_set.URL_ENCODE, QUERY_ENCODE_SET, SIMPLE_ENCODE_SET,
    querySpecEncodeSet, Bool.or_eq_true, decide_eq_true_eq]
  omega

theorem utf8_percent_encode_eq_spec (s : Bytes) :
    utf8_percent_encode s = percentEncodeWith querySpecEncodeSet s := by
  unfold utf8_percent_encode
  induction s with
  | nil => rfl
  | cons b rest ih =>
    simp only [percentEncodeWith, percentEncodeByteWith, urlEncode_eq_querySpec b, ih]

theorem queryStringAux_false (ps : List (Bytes × Bytes)) :
    queryStringAux false ps =
      (ps.map (fun q =>
        [0x26] ++ utf8_percent_encode q.1 ++ [0x3D] ++ utf8_percent_encode q.2)).flatten := by
  induction ps with
  | nil => rfl
  | cons p rest ih =>
    cases p with
    | mk k v => simp [queryStringAux, ih]

/-- The query string built by `lib.rs` 143-152 coincides with the spec-side
construction. -/
theorem queryString_eq_spec (ps : List (Bytes × Bytes)) :
    queryString ps = queryStringSpec ps := by
  cases ps with
  | nil => rfl
  | cons p rest =>
    cases p with
    | mk k v =>
      simp [queryString, queryStringAux, queryStringAux_false, queryStringSpec,
        querySpecSegment, utf8_percent_encode_eq_spec]

/-! ## Concrete fixtures for witnesses and counterexamples -/

/-- A minimal well-formed GET event with no query parameters and no body. -/
def evGET : LambdaEvent :=
  { method := strB "GET", scheme := some (strB "https"), authority := some (strB "ex")
    path := strB "/", queryParams := [], headers := [], body := LambdaBody.empty }

/-- `evGET` with the authority missing. -/
def evNoAuth : LambdaEvent := { evGET with authority := none }

/-- The normalized request built from `evGET`. -/
def wReq : ActixRequest :=
  { method := strB "GET", uri := strB "https://ex/", headers := [], payload := [] }

/-- A service answering with a 200 `text/plain` response whose body streams
the single chunk `hi` and completes. -/
def wService : ActixRequest → Except ActixError (ActixResponse BodyProducer) :=
  fun _ => Except.ok
    { status := 200, headers := [(strB "content-type", strB "text/plain")]
      body := { chunks := [strB "hi"], error := none } }

/-- A service answering 200 with a body that is not valid UTF-8 (`0xFF`). -/
def wServiceBadUtf8 : ActixRequest → Except ActixError (ActixResponse BodyProducer) :=
  fun _ => Except.ok
    { status := 200, headers := [], body := { chunks := [[0xFF]], error := none } }

/-- A service answering 200 whose body producer fails mid-stream with
error value `7`. -/
def wServiceMatFail : ActixRequest → Except ActixError (ActixResponse BodyProducer) :=
  fun _ => Except.ok
    { status := 200, headers := [], body := { chunks := [], error := some 7 } }

/-- Error rendering rule: a 500 response with body `oops`. -/
def wRender : ActixError → ActixResponse BodyProducer :=
  fun _ => { status := 500, headers := [], body := { chunks := [strB "oops"], error := none } }

/-- Error rendering rule whose own rendered body fails to materialize. -/
def wRenderFail : ActixError → ActixResponse BodyProducer :=
  fun e => { status := 500, headers := [], body := { chunks := [strB "oops"], error := some e } }

/-- The invocation event of the spec's scenario: GET
`https://api.example.com/items` with query `[(q, a b), (q, c&d)]`. -/
def c1Event : LambdaEvent :=
  { method := strB "GET", scheme := some (strB "https")
    authority := some (strB "api.example.com"), path := strB "/items"
    queryParams := [(strB "q", strB "a b"), (strB "q", strB "c&d")]
    headers := [], body := LambdaBody.empty }

/-! ## Claim C1 -/

/-- C1 counterexample: on the spec's scenario event, the normalized URI is
`https://api.example.com/items?q=a%20b&q=c&d` — the `&` inside the raw value
`c&d` is NOT percent-encoded (`&` = 0x26 is in neither the baseline query
encode set nor `URL_ENCODE`), so the URI differs from the claimed
`https://api.example.com/items?q=a%20b&q=c%26d`. -/
theorem C1_counterexample :
    (normalize c1Event).map (fun p => p.1.uri) =
      some (strB "https://api.example.com/items?q=a%20b&q=c&d") ∧
    (normalize c1Event).map (fun p => p.1.uri) ≠
      some (strB "https://api.example.com/items?q=a%20b&q=c%26d") := by
  constructor
  · rfl
  · decide

/-- C1 (amended): the normalized URI is the event's scheme and authority plus
the path, followed by the query parameters serialized in order — first pair
prefixed with `?`, subsequent pairs with `&`, each key and value individually
percent-encoded with the baseline query encode set plus `%` (and no `?` when
the list is empty); on the scenario event, since `&` is not in that encode
set, the result is `https://api.example.com/items?q=a%20b&q=c&d`. -/
theorem C1_uri_normalization (ev : LambdaEvent) (sch auth : Bytes)
    (hs : ev.scheme = some sch) (ha : ev.authority = some auth) :
    (∃ req ev2, normalize ev = some (req, ev2) ∧
      req.uri = sch ++ strB "://" ++ auth ++ ev.path ++ queryStringSpec ev.queryParams) ∧
    (∀ b, enc_set.URL_ENCODE b = querySpecEncodeSet b) ∧
    queryString [] = [] ∧
    (normalize c1Event).map (fun p => p.1.uri) =
      some (strB "https://api.example.com/items?q=a%20b&q=c&d") := by
  refine ⟨?_, urlEncode_eq_querySpec, rfl, rfl⟩
  have hn : normalize ev = some
      ({ method := ev.method
         uri := reconstructUri sch auth ev.path ev.queryParams
         headers := ev.headers
         payload := match ev.body with
           | LambdaBody.empty => []
           | LambdaBody.text s => s
           | LambdaBody.binary bs => bs },
       { ev with
         body := match ev.body with
           | LambdaBody.empty => LambdaBody.empty
           | LambdaBody.text _ => LambdaBody.text []
           | LambdaBody.binary _ => LambdaBody.binary []
         headers := [] }) := by
    unfold normalize
    rw [hs, ha]
  refine ⟨_, _, hn, ?_⟩
  show reconstructUri sch auth ev.path ev.queryParams = _
  rw [reconstructUri, queryString_eq_spec]
  rfl

/-- C1 witness: the amended theorem evaluated on the scenario event. -/
theorem C1_uri_normalization_witness :
    (∃ req ev2, normalize c1Event = some (req, ev2) ∧
      req.uri = strB "https" ++ strB "://" ++ strB "api.example.com" ++
        c1Event.path ++ queryStringSpec c1Event.queryParams) ∧
    (∀ b, enc_set.URL_ENCODE b = querySpecEncodeSet b) ∧
    queryString [] = [] ∧
    (normalize c1Event).map (fun p => p.1.uri) =
      some (strB "https://api.example.com/items?q=a%20b&q=c&d") :=
  C1_uri_normalization c1Event (strB "https") (strB "api.example.com") rfl rfl

/-! ## Claim C2 -/

/-- C2: percent-decoding each percent-encoded key and value segment used to
build the query string yields back exactly the original pairs in order —
including pairs whose raw bytes contain `%`, because `%` itself is in the
encode set — and the query string is assembled from exactly those segments. -/
theorem C2_query_roundtrip (params : List (Bytes × Bytes))
    (h : ∀ kv ∈ params, validBytes kv.1 ∧ validBytes kv.2) :
    params.map (fun kv =>
      (percentDecode (utf8_percent_encode kv.1),
       percentDecode (utf8_percent_encode kv.2))) = params ∧
    queryString params = queryStringSpec params := by
  refine ⟨?_, queryString_eq_spec params⟩
  induction params with
  | nil => rfl
  | cons kv rest ih =>
    have hkv := h kv (List.mem_cons_self kv rest)
    have hrest : ∀ p ∈ rest, validBytes p.1 ∧ validBytes p.2 :=
      fun p hp => h p (List.mem_cons_of_mem kv hp)
    simp only [List.map_cons, ih hrest,
      percentDecode_utf8_percent_encode kv.1 hkv.1,
      percentDecode_utf8_percent_encode kv.2 hkv.2]

/-- C2 witness: a parameter list whose raw key and value both contain `%`. -/
theorem C2_query_roundtrip_witness :
    [(strB "a%b", strB "c%")].map (fun kv =>
      (percentDecode (utf8_percent_encode kv.1),
       percentDecode (utf8_percent_encode kv.2))) = [(strB "a%b", strB "c%")] ∧
    queryString [(strB "a%b", strB "c%")] = queryStringSpec [(strB "a%b", strB "c%")] :=
  C2_query_roundtrip [(strB "a%b", strB "c%")] (by decide)

/-! ## Claim C3 -/

/-- C3: when the classification predicate returns false for the response's
content type, valid-UTF-8 bytes become the text body variant carrying exactly
those bytes (a Rust `String` is its UTF-8 bytes, so the text decodes to
exactly the original string), and invalid bytes fail the invocation with the
UTF-8 encoding error — never a silent coercion to binary. -/
theorem C3_text_encoding (pred : Bytes → Bool)
    (service : ActixRequest → Except ActixError (ActixResponse BodyProducer))
    (render : ActixError → ActixResponse BodyProducer)
    (ev : LambdaEvent) (req : ActixRequest) (ev2 : LambdaEvent)
    (resp : ActixResponse BodyProducer) (bytes : Bytes)
    (hn : normalize ev = some (req, ev2))
    (hsvc : service req = Except.ok resp)
    (hbody : read_body resp.body = Except.ok bytes)
    (hpred : pred (contentTypeOf resp.headers) = false) :
    (utf8Valid bytes = true →
      lambda_http_handler pred service render ev =
        some (Except.ok
          { status := resp.status, headers := resp.headers,
            body := LambdaBody.text bytes })) ∧
    (utf8Valid bytes = false →
      lambda_http_handler pred service render ev =
        some (Except.error HandlerError.utf8Error)) := by
  constructor <;> intro hv <;>
    simp [lambda_http_handler, hn, hsvc, hbody, encodeLambdaResponse, hpred, hv]

/-- The 200 `text/plain` response carried inside `wService`. -/
def wResp : ActixResponse BodyProducer :=
  { status := 200, headers := [(strB "content-type", strB "text/plain")]
    body := { chunks := [strB "hi"], error := none } }

/-- C3 witness: `wService` on `evGET` with the always-text predicate yields
the text body `hi` with the original status and headers. -/
theorem C3_text_encoding_witness :
    lambda_http_handler (fun _ => false) wService wRender evGET =
      some (Except.ok
        { status := 200
          headers := [(strB "content-type", strB "text/plain")]
          body := LambdaBody.text (strB "hi") }) :=
  (C3_text_encoding (fun _ => false) wService wRender evGET wReq evGET wResp
    (strB "hi") rfl rfl rfl rfl).1 rfl

/-! ## Claim C4 -/

/-- C4: the classification predicate is applied to the `content-type` header
value — or to the empty string when the header is absent or its value is not
representable as a string — and when it returns true the outbound body is the
binary variant carrying the materialized bytes byte-for-byte; this path
always succeeds (no validity condition on the bytes). -/
theorem C4_binary_encoding (pred : Bytes → Bool)
    (service : ActixRequest → Except ActixError (ActixResponse BodyProducer))
    (render : ActixError → ActixResponse BodyProducer)
    (ev : LambdaEvent) (req : ActixRequest) (ev2 : LambdaEvent)
    (resp : ActixResponse BodyProducer) (bytes : Bytes)
    (hn : normalize ev = some (req, ev2))
    (hsvc : service req = Except.ok resp)
    (hbody : read_body resp.body = Except.ok bytes)
    (hpred : pred (contentTypeOf resp.headers) = true) :
    lambda_http_handler pred service render ev =
      some (Except.ok
        { status := resp.status, headers := resp.headers,
          body := LambdaBody.binary bytes }) ∧
    (∀ hdrs : List (Bytes × Bytes),
      hdrs.find? (fun kv => decide (kv.1 = contentTypeName)) = none →
      contentTypeOf hdrs = []) ∧
    (∀ (hdrs : List (Bytes × Bytes)) (n v : Bytes),
      hdrs.find? (fun kv => decide (kv.1 = contentTypeName)) = some (n, v) →
      headerValueToStr v = none →
      contentTypeOf hdrs = []) := by
  refine ⟨?_, ?_, ?_⟩
  · simp [lambda_http_handler, hn, hsvc, hbody, encodeLambdaResponse, hpred]
  · intro hdrs hfind
    simp [contentTypeOf, hfind]
  · intro hdrs n v hfind hstr
    simp [contentTypeOf, hfind, hstr]

/-- An `application/octet-stream` response whose body bytes (`0xFF 0x00`) are
not valid UTF-8. -/
def wRespOctet : ActixResponse BodyProducer :=
  { status := 200
    headers := [(strB "content-type", strB "application/octet-stream")]
    body := { chunks := [[0xFF, 0x00]], error := none } }

/-- A service answering with `wRespOctet`. -/
def wServiceOctet : ActixRequest → Except ActixError (ActixResponse BodyProducer) :=
  fun _ => Except.ok wRespOctet

/-- The membership predicate built from the list
`[application/octet-stream]` (`binary_media_types`, `lib.rs` 88-94). -/
def wOctetPred : Bytes → Bool :=
  fun ty => decide (ty = strB "application/octet-stream")

/-- C4 witness: an octet-stream response with non-UTF-8 bytes is transmitted
as the binary variant with exactly those bytes. -/
theorem C4_binary_encoding_witness :
    lambda_http_handler wOctetPred wServiceOctet wRender evGET =
      some (Except.ok
        { status := 200
          headers := [(strB "content-type", strB "application/octet-stream")]
          body := LambdaBody.binary [0xFF, 0x00] }) :=
  (C4_binary_encoding wOctetPred wServiceOctet wRender evGET wReq evGET
    wRespOctet [0xFF, 0x00] rfl rfl rfl rfl).1

/-! ## Claim C5 -/

/-- C5 counterexample: a service call succeeds but its body producer fails
mid-stream (error value `7`); the handler does NOT fail the invocation — it
returns `Ok` with the error-rendered 500 response (`and_then`'s error flows
into the same `unwrap_or_else` fallback as a service failure,
`lib.rs` 178-210). -/
theorem C5_counterexample :
    lambda_http_handler (fun _ => false) wServiceMatFail wRender evGET =
      some (Except.ok
        { status := 500, headers := []
          body := LambdaBody.text (strB "oops") }) := rfl

/-- C5 (amended): a response-body materialization failure on the success path
is not propagated as the invocation's failure; it is recovered into the
error-fallback path — the handler behaves exactly as if the service call had
failed with that error, returning the response rendered from it. -/
theorem C5_matfail_recovered (pred : Bytes → Bool)
    (service : ActixRequest → Except ActixError (ActixResponse BodyProducer))
    (render : ActixError → ActixResponse BodyProducer)
    (ev : LambdaEvent) (req : ActixRequest) (ev2 : LambdaEvent)
    (resp : ActixResponse BodyProducer) (e : ActixError)
    (hn : normalize ev = some (req, ev2))
    (hsvc : service req = Except.ok resp)
    (hbody : read_body resp.body = Except.error e) :
    lambda_http_handler pred service render ev =
      some (encodeLambdaResponse pred (errorFallbackResponse render e)) ∧
    lambda_http_handler pred service render ev =
      lambda_http_handler pred (fun _ => Except.error e) render ev := by
  constructor <;> simp [lambda_http_handler, hn, hsvc, hbody]

/-- C5 witness: the amended theorem evaluated on the concrete
materialization-failure scenario. -/
theorem C5_matfail_recovered_witness :
    lambda_http_handler (fun _ => false) wServiceMatFail wRender evGET =
      some (encodeLambdaResponse (fun _ => false)
        (errorFallbackResponse wRender 7)) ∧
    lambda_http_handler (fun _ => false) wServiceMatFail wRender evGET =
      lambda_http_handler (fun _ => false) (fun _ => Except.error 7) wRender evGET :=
  C5_matfail_recovered (fun _ => false) wServiceMatFail wRender evGET wReq evGET
    { status := 200, headers := [], body := { chunks := [], error := some 7 } }
    7 rfl rfl rfl

/-! ## Claim C6 -/

/-- C6: when the service call fails, the error response rendered from the
failure value is returned even if materializing its body fails too: the
secondary failure is swallowed, an empty body is substituted, the rendered
status and headers are kept, and the binary/text classification is still
applied to the empty body (empty bytes are valid UTF-8, so the text-classified
case is the text variant with the empty string). -/
theorem C6_error_fallback (pred : Bytes → Bool)
    (service : ActixRequest → Except ActixError (ActixResponse BodyProducer))
    (render : ActixError → ActixResponse BodyProducer)
    (ev : LambdaEvent) (req : ActixRequest) (ev2 : LambdaEvent)
    (e e2 : ActixError)
    (hn : normalize ev = some (req, ev2))
    (hsvc : service req = Except.error e)
    (hmat : read_body (render e).body = Except.error e2) :
    lambda_http_handler pred service render ev =
      some (Except.ok
        { status := (render e).status, headers := (render e).headers,
          body := if pred (contentTypeOf (render e).headers)
            then LambdaBody.binary [] else LambdaBody.text [] }) ∧
    utf8Valid [] = true := by
  have hnil : utf8Valid [] = true := rfl
  refine ⟨?_, hnil⟩
  by_cases hp : pred (contentTypeOf (render e).headers) <;>
    simp [lambda_http_handler, hn, hsvc, errorFallbackResponse, hmat,
      encodeLambdaResponse, hp, hnil]

/-- C6 witness: a failing service call whose rendered 500 body itself fails
to materialize yields the 500 response with the empty text body. -/
theorem C6_error_fallback_witness :
    lambda_http_handler (fun _ => false) (fun _ => Except.error 3) wRenderFail evGET =
      some (Except.ok { status := 500, headers := [], body := LambdaBody.text [] }) ∧
    utf8Valid [] = true :=
  C6_error_fallback (fun _ => false) (fun _ => Except.error 3) wRenderFail evGET
    wReq evGET 3 3 rfl rfl rfl

/-! ## Claim C7 -/

/-- After normalization, the only failing outcome of the response-encoding
step is the UTF-8 error. -/
theorem encodeLambdaResponse_cases (pred : Bytes → Bool) (resp : ActixResponse Bytes) :
    (∃ r, encodeLambdaResponse pred resp = Except.ok r) ∨
    encodeLambdaResponse pred resp = Except.error HandlerError.utf8Error := by
  unfold encodeLambdaResponse
  by_cases hb : pred (contentTypeOf resp.headers)
  · exact Or.inl
      ⟨{ status := resp.status, headers := resp.headers
         body := LambdaBody.binary resp.body },
       by simp [hb]⟩
  · by_cases hv : utf8Valid resp.body
    · exact Or.inl
        ⟨{ status := resp.status, headers := resp.headers
           body := LambdaBody.text resp.body },
         by simp [hb, hv]⟩
    · exact Or.inr (by simp [hb, hv])

/-- Once normalization succeeds, the handler's result is the encoding of some
materialized Actix response. -/
theorem handler_encodes (pred : Bytes → Bool)
    (service : ActixRequest → Except ActixError (ActixResponse BodyProducer))
    (render : ActixError → ActixResponse BodyProducer)
    (ev : LambdaEvent) (req : ActixRequest) (ev2 : LambdaEvent)
    (hn : normalize ev = some (req, ev2)) :
    ∃ aresp, lambda_http_handler pred service render ev =
      some (encodeLambdaResponse pred aresp) := by
  unfold lambda_http_handler
  rw [hn]
  exact ⟨_, rfl⟩

/-- C7 counterexample: an invocation whose (successful) service response body
is not valid UTF-8 under the always-text predicate yields NO invocation
response — the handler returns the UTF-8 handler error instead, so "every
event yields exactly one response" fails (zero responses here). -/
theorem C7_counterexample :
    lambda_http_handler (fun _ => false) wServiceBadUtf8 wRender evGET =
      some (Except.error HandlerError.utf8Error) := rfl

/-- C7 (amended): an event with scheme and authority yields at most one
result, and exactly one response (success or error-fallback) unless the
response encoder hits the UTF-8 error, in which case the invocation fails
with a handler error and yields no response; no other outcome exists. -/
theorem C7_one_response (pred : Bytes → Bool)
    (service : ActixRequest → Except ActixError (ActixResponse BodyProducer))
    (render : ActixError → ActixResponse BodyProducer)
    (ev : LambdaEvent) (sch auth : Bytes)
    (hs : ev.scheme = some sch) (ha : ev.authority = some auth) :
    ((∃ r, lambda_http_handler pred service render ev = some (Except.ok r)) ∨
      lambda_http_handler pred service render ev =
        some (Except.error HandlerError.utf8Error)) ∧
    (∀ x y, lambda_http_handler pred service render ev = some x →
      lambda_http_handler pred service render ev = some y → x = y) := by
  constructor
  · obtain ⟨req, ev2, hn⟩ : ∃ req ev2, normalize ev = some (req, ev2) := by
      unfold normalize
      rw [hs, ha]
      exact ⟨_, _, rfl⟩
    obtain ⟨aresp, henc⟩ := handler_encodes pred service render ev req ev2 hn
    rw [henc]
    rcases encodeLambdaResponse_cases pred aresp with ⟨r, hr⟩ | hr
    · exact Or.inl ⟨r, by rw [hr]⟩
    · exact Or.inr (by rw [hr])
  · intro x y hx hy
    rw [hx] at hy
    exact Option.some.inj hy

/-- C7 witness: on a well-formed event with a well-behaved service the
amended theorem instantiates to the success case. -/
theorem C7_one_response_witness :
    ((∃ r, lambda_http_handler (fun _ => false) wService wRender evGET =
        some (Except.ok r)) ∨
      lambda_http_handler (fun _ => false) wService wRender evGET =
        some (Except.error HandlerError.utf8Error)) ∧
    (∀ x y, lambda_http_handler (fun _ => false) wService wRender evGET = some x →
      lambda_http_handler (fun _ => false) wService wRender evGET = some y → x = y) :=
  C7_one_response (fun _ => false) wService wRender evGET
    (strB "https") (strB "ex") rfl rfl

/-! ## Claim C8 -/

/-- C8: when the event's URI has both a scheme and an authority, the handler
never hits the missing-origin failure (it produces a result); when either is
absent, the invocation fails fatally — the `unwrap()` at `lib.rs` 137-138
panics (modelled by `none`) instead of returning a structured error. -/
theorem C8_missing_origin (pred : Bytes → Bool)
    (service : ActixRequest → Except ActixError (ActixResponse BodyProducer))
    (render : ActixError → ActixResponse BodyProducer)
    (ev : LambdaEvent) :
    ((∃ sch, ev.scheme = some sch) → (∃ auth, ev.authority = some auth) →
      ∃ x, lambda_http_handler pred service render ev = some x) ∧
    (ev.scheme = none ∨ ev.authority = none →
      lambda_http_handler pred service render ev = none) := by
  constructor
  · rintro ⟨sch, hs⟩ ⟨auth, ha⟩
    unfold lambda_http_handler normalize
    rw [hs, ha]
    exact ⟨_, rfl⟩
  · intro h
    unfold lambda_http_handler normalize
    rcases h with h | h
    · rw [h]
    · rw [h]
      rcases ev.scheme with _ | sch <;> rfl

/-- C8 witness: the event lacking an authority makes the call panic (`none`),
and the well-formed `evGET` does not. -/
theorem C8_missing_origin_witness :
    lambda_http_handler (fun _ => false) wService wRender evNoAuth = none ∧
    ∃ x, lambda_http_handler (fun _ => false) wService wRender evGET = some x :=
  ⟨(C8_missing_origin (fun _ => false) wService wRender evNoAuth).2 (Or.inr rfl),
   (C8_missing_origin (fun _ => false) wService wRender evGET).1
     ⟨strB "https", rfl⟩ ⟨strB "ex", rfl⟩⟩

/-! ## Claim C9 -/

/-- C9: normalization is idempotent in its observable output — two runs on
the same event produce the same normalized URI and the same header set, and
even a run on the event as the first run's mutations leave it (body storage
replaced, headers drained) still reconstructs the same URI, since the URI is
built only from the untouched scheme, authority, path and query parameters. -/
theorem C9_normalize_idempotent (ev : LambdaEvent)
    (req1 : ActixRequest) (ev1 : LambdaEvent)
    (req2 : ActixRequest) (ev2 : LambdaEvent)
    (req3 : ActixRequest) (ev3 : LambdaEvent)
    (h1 : normalize ev = some (req1, ev1))
    (h2 : normalize ev = some (req2, ev2))
    (h3 : normalize ev1 = some (req3, ev3)) :
    req2.uri = req1.uri ∧ req2.headers = req1.headers ∧ req3.uri = req1.uri := by
  rw [h1, Option.some_inj, Prod.mk.injEq] at h2
  obtain ⟨hq, he⟩ := h2
  subst hq
  refine ⟨rfl, rfl, ?_⟩
  rcases hsch : ev.scheme with _ | sch
  · rw [normalize, hsch] at h1
    exact Option.noConfusion h1
  · rcases hauth : ev.authority with _ | auth
    · rw [normalize, hsch, hauth] at h1
      exact Option.noConfusion h1
    · rw [normalize, hsch, hauth] at h1
      rw [Option.some_inj, Prod.mk.injEq] at h1
      obtain ⟨hr1, hev1⟩ := h1
      rw [normalize, ← hev1] at h3
      simp only [hsch, hauth] at h3
      rw [Option.some_inj, Prod.mk.injEq] at h3
      obtain ⟨hr3, _⟩ := h3
      rw [← hr3, ← hr1]

/-- C9 witness: both runs on `evGET` (whose post-normalization event equals
itself) produce the normalized request `wReq`. -/
theorem C9_normalize_idempotent_witness :
    wReq.uri = wReq.uri ∧ wReq.headers = wReq.headers ∧ wReq.uri = wReq.uri :=
  C9_normalize_idempotent evGET wReq evGET wReq evGET wReq evGET rfl rfl rfl

/-! ## Claim C10 -/

/-- C10: a query parameter with an empty value is serialized as `key=` — the
literal `=` separator is always written (`write!("{}{}={}", ..)`), and an
empty value contributes nothing after it; concretely, `[(a, empty), (b, 2)]`
reappears in the normalized URI as `?a=&b=2`. -/
theorem C10_empty_value_trailing_eq (first : Bool) (k : Bytes)
    (rest : List (Bytes × Bytes)) :
    queryStringAux first ((k, []) :: rest) =
      (if first then [0x3F] else [0x26]) ++ utf8_percent_encode k ++ [0x3D] ++
        queryStringAux false rest ∧
    reconstructUri (strB "https") (strB "ex") (strB "/")
        [(strB "a", []), (strB "b", strB "2")] = strB "https://ex/?a=&b=2" := by
  constructor
  · show ((if first then [0x3F] else [0x26]) ++
      utf8_percent_encode k ++ [0x3D] ++ utf8_percent_encode []) ++
      queryStringAux false rest = _
    simp [utf8_percent_encode, percentEncodeWith]
  · rfl

end ActixLambdaHttp
